import Mathlib

/-!
Verification development for the LBP-LITE liquidity-bootstrapping-pool engine.
The repository ships the Anchor IDL (`packages/contracts/types/fjord_lbp.ts`)
and the sell-side integration tests; the engine itself (pricing, fees,
admission control, vesting) is not part of the sources, so the definitions
below are modelled from the specification and checked against the IDL's
declared error and instruction surface and the tests' expectations.
-/

namespace FjordLbp

/-- Modelled from the spec: the error taxonomy of §7, matching the `errors`
table of the IDL (`fjord_lbp.ts`) plus the SafeMath / pricing error kinds of
§4.1 whose numeric codes are not declared in the IDL. -/
inductive ErrorCode where
  | InvalidAssetOrShare
  | SalePeriodLow
  | InvalidVestCliff
  | InvalidVestEnd
  | InvalidWeightConfig
  | InvalidAssetValue
  | MaxFeeExceeded
  | AssetsInExceeded
  | SharesOutExceeded
  | WhitelistProof
  | SlippageExceeded
  | SellingDisallowed
  | TradingDisallowed
  | ClosingDisallowed
  | RedeemingDisallowed
  | CallerDisallowed
  | AdditionOverflow
  | SubtractionUnderflow
  | MultiplicationOverflow
  | DivisionUnderflow
  | ExponentiationOverflow
  | ConversionOverflow
  | AmountInTooLarge
  | AmountOutTooLarge
  | Unauthorized
  deriving Repr, DecidableEq

/-- Modelled from the spec: the `OwnerConfig` singleton of §3 restricted to the
fee parameters the swap path reads (basis points of 10000). -/
structure OwnerConfig where
  platformFee : Nat
  referralFee : Nat
  swapFee : Nat
  deriving Repr, DecidableEq

/-- Modelled from the spec: the per-pool record of §3 (configuration, flags and
running counters); token identities are omitted, `whitelistRequired` stands for
"the Merkle root is non-zero". -/
structure Pool where
  virtualAssets : Nat
  virtualShares : Nat
  maxSharePrice : Nat
  maxSharesOut : Nat
  maxAssetsIn : Nat
  startWeightBasisPoints : Nat
  endWeightBasisPoints : Nat
  saleStartTime : Int
  saleEndTime : Int
  vestCliff : Int
  vestEnd : Int
  whitelistRequired : Bool
  sellingAllowed : Bool
  closed : Bool
  totalPurchased : Nat
  totalReferred : Nat
  totalSwapFeesAsset : Nat
  totalSwapFeesShare : Nat
  deriving Repr, DecidableEq

/-- Modelled from the spec: the per-buyer record of §3. -/
structure UserStateInPool where
  purchasedShares : Nat
  referredAssets : Nat
  redeemedShares : Nat
  deriving Repr, DecidableEq

/-- Modelled from the spec: the state a swap reads and writes — the pool
record, the caller's state record, and the token-account balances of the pool
and the caller (§3 lifecycle, §4.6). -/
structure SwapState where
  pool : Pool
  user : UserStateInPool
  poolAssetBalance : Nat
  poolShareBalance : Nat
  userAssetBalance : Nat
  userShareBalance : Nat
  deriving Repr, DecidableEq

/-- Modelled from the spec: monetary quantities are unsigned 64-bit (§4.1);
`U64LIMIT = 2^64` is the first excluded value. -/
def U64LIMIT : Nat := 2 ^ 64

/-- Modelled from the spec: checked addition of §4.1 SafeMath — fails with
`AdditionOverflow` instead of wrapping. -/
def checkedAdd (a b : Nat) : Except ErrorCode Nat :=
  if a + b < U64LIMIT then .ok (a + b) else .error .AdditionOverflow

/-- Modelled from the spec: checked subtraction of §4.1 SafeMath — fails with
`SubtractionUnderflow` instead of truncating. -/
def checkedSub (a b : Nat) : Except ErrorCode Nat :=
  if b ≤ a then .ok (a - b) else .error .SubtractionUnderflow

/-- Modelled from the spec: §4.2 WeightSchedule. Before `saleStartTime` the
start weights, at or after `saleEndTime` the end weights, otherwise linear
interpolation in integer (u64) arithmetic; the asset weight is the basis-point
complement. -/
def weightAt (pool : Pool) (now : Int) : Nat × Nat :=
  if now < pool.saleStartTime then
    (pool.startWeightBasisPoints, 10000 - pool.startWeightBasisPoints)
  else if pool.saleEndTime ≤ now then
    (pool.endWeightBasisPoints, 10000 - pool.endWeightBasisPoints)
  else
    let w : Nat :=
      if pool.startWeightBasisPoints ≤ pool.endWeightBasisPoints then
        pool.startWeightBasisPoints +
          (pool.endWeightBasisPoints - pool.startWeightBasisPoints) *
              (now - pool.saleStartTime).toNat /
            (pool.saleEndTime - pool.saleStartTime).toNat
      else
        pool.startWeightBasisPoints -
          (pool.startWeightBasisPoints - pool.endWeightBasisPoints) *
              (now - pool.saleStartTime).toNat /
            (pool.saleEndTime - pool.saleStartTime).toNat
    (w, 10000 - w)

/-- Modelled from the spec: the search core of the §4.4 fixed-point power
routine. `leastGE q yp target n fuel` walks upward from `n` and returns the
least `m` with `target ≤ m ^ q * yp`, giving up (the §4.1
`AmountInTooLarge` / `AmountOutTooLarge` magnitude guard) once `fuel` candidates
have been tried. -/
def leastGE (q yp target : Nat) : Nat → Nat → Option Nat
  | _, 0 => .none
  | n, fuel + 1 =>
    if target ≤ n ^ q * yp then .some n else leastGE q yp target (n + 1) fuel

/-- Modelled from the spec: the §4.4 weighted power primitive, rounded in the
pool's favor. `ceilWeightedPow C x y p q` is the ceiling of the real number
`C * (x / y) ^ (p / q)`, i.e. the least `m` with `m ^ q * y ^ p ≥ C ^ q * x ^ p`;
`none` when the result would exceed the u64 magnitude bound. -/
def ceilWeightedPow (C x y p q : Nat) : Option Nat :=
  leastGE q (y ^ p) (C ^ q * x ^ p) 0 U64LIMIT

/-- Modelled from the spec: §4.4
`sharesOut = shareBal * (1 - (assetBal / (assetBal + assetsIn)) ^ (assetWeight / shareWeight))`,
rounded in the pool's favor (the subtracted term takes its ceiling). `A`, `S`
are the virtual-augmented reserves, `sw`, `aw` the share/asset weights. -/
def sharesOutForExactAssetsIn (A S sw aw a : Nat) : Except ErrorCode Nat :=
  if sw = 0 ∨ aw = 0 then .error .InvalidWeightConfig
  else
    match ceilWeightedPow S A (A + a) (aw / Nat.gcd aw sw) (sw / Nat.gcd aw sw) with
    | .some c => .ok (S - c)
    | .none => .error .AmountOutTooLarge

/-- Modelled from the spec: §4.4 sell-side quote, the symmetric formula with
share/asset roles and weights swapped:
`assetsOut = assetBal * (1 - (shareBal / (shareBal + sharesIn)) ^ (shareWeight / assetWeight))`,
rounded in the pool's favor. -/
def assetsOutForExactSharesIn (A S sw aw s : Nat) : Except ErrorCode Nat :=
  if sw = 0 ∨ aw = 0 then .error .InvalidWeightConfig
  else
    match ceilWeightedPow A S (S + s) (sw / Nat.gcd aw sw) (aw / Nat.gcd aw sw) with
    | .some c => .ok (A - c)
    | .none => .error .AmountOutTooLarge

/-- Modelled from the spec: §4.4 inverse of `sharesOutForExactAssetsIn`, solved
for `assetsIn` and rounded up (pool's favor); fails when `sharesOut` reaches
the share reserve (the pool cannot sell more shares than it holds). -/
def assetsInForExactSharesOut (A S sw aw s : Nat) : Except ErrorCode Nat :=
  if sw = 0 ∨ aw = 0 then .error .InvalidWeightConfig
  else if S ≤ s then .error .AmountOutTooLarge
  else
    match ceilWeightedPow A S (S - s) (sw / Nat.gcd aw sw) (aw / Nat.gcd aw sw) with
    | .some n => .ok (n - A)
    | .none => .error .AmountInTooLarge

/-- Modelled from the spec: §4.4 inverse of `assetsOutForExactSharesIn`, solved
for `sharesIn` and rounded up (pool's favor); fails when `assetsOut` reaches
the asset reserve. -/
def sharesInForExactAssetsOut (A S sw aw aOut : Nat) : Except ErrorCode Nat :=
  if sw = 0 ∨ aw = 0 then .error .InvalidWeightConfig
  else if A ≤ aOut then .error .AmountOutTooLarge
  else
    match ceilWeightedPow S A (A - aOut) (aw / Nat.gcd aw sw) (sw / Nat.gcd aw sw) with
    | .some n => .ok (n - S)
    | .none => .error .AmountInTooLarge

/-- Modelled from the spec: §4.5 `platformFeeAmt = floor(amount * platformFee / 10000)`. -/
def platformFeeAmt (cfg : OwnerConfig) (amount : Nat) : Nat :=
  amount * cfg.platformFee / 10000

/-- Modelled from the spec: §4.5 `referralFeeAmt = floor(amount * referralFee / 10000)`. -/
def referralFeeAmt (cfg : OwnerConfig) (amount : Nat) : Nat :=
  amount * cfg.referralFee / 10000

/-- Modelled from the spec: §4.5 `swapFeeAmt = floor(amount * swapFee / 10000)`. -/
def swapFeeAmt (cfg : OwnerConfig) (amount : Nat) : Nat :=
  amount * cfg.swapFee / 10000

/-- Modelled from the spec: the total of the §4.5 three-way fee split. -/
def totalFeeAmt (cfg : OwnerConfig) (amount : Nat) : Nat :=
  platformFeeAmt cfg amount + referralFeeAmt cfg amount + swapFeeAmt cfg amount

/-- Modelled from the spec: §4.5 — the gross amount net of the fee split,
subtracted with §4.1 checked arithmetic. -/
def netAfterFees (cfg : OwnerConfig) (amount : Nat) : Except ErrorCode Nat :=
  checkedSub amount (totalFeeAmt cfg amount)

/-- Modelled from the spec: the exact-out gross-up — the least gross amount
whose §4.5 fee carve-out leaves the raw quote, i.e.
`ceil(raw * 10000 / (10000 - totalFeeBp))`; fails when the fee configuration
consumes the whole amount. -/
def grossUpForFees (cfg : OwnerConfig) (raw : Nat) : Except ErrorCode Nat :=
  let t := cfg.platformFee + cfg.referralFee + cfg.swapFee
  if t < 10000 then .ok ((raw * 10000 + (10000 - t) - 1) / (10000 - t))
  else .error .MaxFeeExceeded

/-- Modelled from the spec: §4.4 — reserves used in every pricing calculation
are real reserve + virtual reserve (asset side). -/
def reserveAssets (st : SwapState) : Nat :=
  st.poolAssetBalance + st.pool.virtualAssets

/-- Modelled from the spec: §4.4 — reserves used in every pricing calculation
are real reserve + virtual reserve (share side). -/
def reserveShares (st : SwapState) : Nat :=
  st.poolShareBalance + st.pool.virtualShares

/-- Modelled from the spec: §6 `previewSharesOut(assetsIn)` — the pure quote
shared verbatim by the mutating buy; the §4.5 fee is taken from `assetsIn`
before pricing. -/
def previewSharesOut (cfg : OwnerConfig) (st : SwapState) (now : Int)
    (assetsIn : Nat) : Except ErrorCode Nat :=
  (netAfterFees cfg assetsIn).bind fun net =>
    sharesOutForExactAssetsIn (reserveAssets st) (reserveShares st)
      (weightAt st.pool now).1 (weightAt st.pool now).2 net

/-- Modelled from the spec: §6 `previewAssetsOut(sharesIn)` — the pure quote
shared verbatim by the mutating exact-in sell; the §4.5 fee is taken from
`sharesIn` before pricing. -/
def previewAssetsOut (cfg : OwnerConfig) (st : SwapState) (now : Int)
    (sharesIn : Nat) : Except ErrorCode Nat :=
  (netAfterFees cfg sharesIn).bind fun net =>
    assetsOutForExactSharesIn (reserveAssets st) (reserveShares st)
      (weightAt st.pool now).1 (weightAt st.pool now).2 net

/-- Modelled from the spec: §6 `previewSharesIn(assetsOut)` — the gross shares
a seller must surrender for an exact asset amount, the raw inverse quote
grossed up so the §4.5 fee can be carved from it. -/
def previewSharesIn (cfg : OwnerConfig) (st : SwapState) (now : Int)
    (assetsOut : Nat) : Except ErrorCode Nat :=
  (sharesInForExactAssetsOut (reserveAssets st) (reserveShares st)
      (weightAt st.pool now).1 (weightAt st.pool now).2 assetsOut).bind fun raw =>
    grossUpForFees cfg raw

/-- Modelled from the spec: §6 `previewAssetsIn(sharesOut)` — the gross assets
a buyer must pay for an exact share amount, the raw inverse quote grossed up
so the §4.5 fee can be carved from it. -/
def previewAssetsIn (cfg : OwnerConfig) (st : SwapState) (now : Int)
    (sharesOut : Nat) : Except ErrorCode Nat :=
  (assetsInForExactSharesOut (reserveAssets st) (reserveShares st)
      (weightAt st.pool now).1 (weightAt st.pool now).2 sharesOut).bind fun raw =>
    grossUpForFees cfg raw

/-- Modelled from the spec: the §4.6 admission checks in their listed order —
closed pool, sale window, selling toggle, whitelist, blocked caller. Caps and
slippage are checked by the individual swaps once the quote is known. -/
def checkAdmission (pool : Pool) (now : Int) (isSell proofOk callerIsCreator : Bool) :
    Except ErrorCode Unit :=
  if pool.closed then .error .TradingDisallowed
  else if now < pool.saleStartTime ∨ pool.saleEndTime ≤ now then .error .TradingDisallowed
  else if isSell && !pool.sellingAllowed then .error .SellingDisallowed
  else if pool.whitelistRequired && !proofOk then .error .WhitelistProof
  else if callerIsCreator then .error .CallerDisallowed
  else .ok ()

/-- Modelled from the spec: §6 `swapExactAssetsForShares(assetsIn, minSharesOut)`
— admission, the shared quote, the §4.6 buy caps and slippage check, then the
all-or-nothing commit: the user pays `assetsIn`, reserves grow by the post-fee
amount, `purchasedShares` / `totalPurchased` grow by the quoted shares, the
swap fee is ledgered and a present referrer accrues the referral fee. -/
def swapExactAssetsForShares (cfg : OwnerConfig) (now : Int) (st : SwapState)
    (assetsIn minSharesOut : Nat) (proofOk hasReferrer callerIsCreator : Bool) :
    Except ErrorCode (SwapState × Nat) :=
  (checkAdmission st.pool now false proofOk callerIsCreator).bind fun _ =>
  (previewSharesOut cfg st now assetsIn).bind fun sharesOut =>
  if st.pool.maxAssetsIn < assetsIn then .error .AssetsInExceeded
  else if st.pool.maxSharesOut < sharesOut then .error .SharesOutExceeded
  else if st.pool.maxSharePrice < assetsIn / sharesOut then .error .SharesOutExceeded
  else if sharesOut < minSharesOut then .error .SlippageExceeded
  else
  (checkedSub st.userAssetBalance assetsIn).bind fun userAsset =>
  (netAfterFees cfg assetsIn).bind fun net =>
  (checkedAdd st.poolAssetBalance net).bind fun poolAsset =>
  (checkedAdd st.user.purchasedShares sharesOut).bind fun purchased =>
  (checkedAdd st.pool.totalPurchased sharesOut).bind fun totalPurchased =>
  (checkedAdd st.pool.totalSwapFeesAsset (swapFeeAmt cfg assetsIn)).bind fun feesAsset =>
  (checkedAdd st.pool.totalReferred
      (if hasReferrer then referralFeeAmt cfg assetsIn else 0)).bind fun referred =>
  .ok ({ st with
          pool := { st.pool with
            totalPurchased := totalPurchased
            totalSwapFeesAsset := feesAsset
            totalReferred := referred }
          user := { st.user with purchasedShares := purchased }
          poolAssetBalance := poolAsset
          userAssetBalance := userAsset }, sharesOut)

/-- Modelled from the spec: §6 `swapAssetsForExactShares(sharesOut, maxAssetsIn)`
— the exact-out buy: the grossed-up asset quote is charged, fees are carved
from it, and the ledgers grow by `sharesOut`. -/
def swapAssetsForExactShares (cfg : OwnerConfig) (now : Int) (st : SwapState)
    (sharesOut maxAssetsIn : Nat) (proofOk hasReferrer callerIsCreator : Bool) :
    Except ErrorCode (SwapState × Nat) :=
  (checkAdmission st.pool now false proofOk callerIsCreator).bind fun _ =>
  (previewAssetsIn cfg st now sharesOut).bind fun assetsIn =>
  if st.pool.maxAssetsIn < assetsIn then .error .AssetsInExceeded
  else if st.pool.maxSharesOut < sharesOut then .error .SharesOutExceeded
  else if st.pool.maxSharePrice < assetsIn / sharesOut then .error .SharesOutExceeded
  else if maxAssetsIn < assetsIn then .error .SlippageExceeded
  else
  (checkedSub st.userAssetBalance assetsIn).bind fun userAsset =>
  (netAfterFees cfg assetsIn).bind fun net =>
  (checkedAdd st.poolAssetBalance net).bind fun poolAsset =>
  (checkedAdd st.user.purchasedShares sharesOut).bind fun purchased =>
  (checkedAdd st.pool.totalPurchased sharesOut).bind fun totalPurchased =>
  (checkedAdd st.pool.totalSwapFeesAsset (swapFeeAmt cfg assetsIn)).bind fun feesAsset =>
  (checkedAdd st.pool.totalReferred
      (if hasReferrer then referralFeeAmt cfg assetsIn else 0)).bind fun referred =>
  .ok ({ st with
          pool := { st.pool with
            totalPurchased := totalPurchased
            totalSwapFeesAsset := feesAsset
            totalReferred := referred }
          user := { st.user with purchasedShares := purchased }
          poolAssetBalance := poolAsset
          userAssetBalance := userAsset }, assetsIn)

/-- Modelled from the spec: §6 `swapExactSharesForAssets(sharesIn, minAssetsOut)`
— the exact-in sell: admission (including the selling toggle), the shared
quote with the fee carved from `sharesIn`, slippage, then the commit asserted
by the repository's sell tests: `purchasedShares` and `totalPurchased` fall by
`sharesIn`, `totalSwapFeesShare` grows by the swap-fee carve, and the quoted
assets move from the pool to the user. -/
def swapExactSharesForAssets (cfg : OwnerConfig) (now : Int) (st : SwapState)
    (sharesIn minAssetsOut : Nat) (proofOk hasReferrer callerIsCreator : Bool) :
    Except ErrorCode (SwapState × Nat) :=
  (checkAdmission st.pool now true proofOk callerIsCreator).bind fun _ =>
  (previewAssetsOut cfg st now sharesIn).bind fun assetsOut =>
  if assetsOut < minAssetsOut then .error .SlippageExceeded
  else
  (checkedSub st.user.purchasedShares sharesIn).bind fun purchased =>
  (checkedSub st.pool.totalPurchased sharesIn).bind fun totalPurchased =>
  (checkedAdd st.pool.totalSwapFeesShare (swapFeeAmt cfg sharesIn)).bind fun feesShare =>
  (checkedSub st.poolAssetBalance assetsOut).bind fun poolAsset =>
  (checkedAdd st.userAssetBalance assetsOut).bind fun userAsset =>
  .ok ({ st with
          pool := { st.pool with
            totalPurchased := totalPurchased
            totalSwapFeesShare := feesShare }
          user := { st.user with purchasedShares := purchased }
          poolAssetBalance := poolAsset
          userAssetBalance := userAsset }, assetsOut)

/-- Modelled from the spec: §6 `swapSharesForExactAssets(assetsOut, maxSharesIn)`
— the exact-out sell: the grossed-up share quote (fee carved out of it, not
added on top) is deducted from the ledgers while exactly `assetsOut` moves
from the pool to the user. -/
def swapSharesForExactAssets (cfg : OwnerConfig) (now : Int) (st : SwapState)
    (assetsOut maxSharesIn : Nat) (proofOk hasReferrer callerIsCreator : Bool) :
    Except ErrorCode (SwapState × Nat) :=
  (checkAdmission st.pool now true proofOk callerIsCreator).bind fun _ =>
  (previewSharesIn cfg st now assetsOut).bind fun sharesIn =>
  if maxSharesIn < sharesIn then .error .SlippageExceeded
  else
  (checkedSub st.user.purchasedShares sharesIn).bind fun purchased =>
  (checkedSub st.pool.totalPurchased sharesIn).bind fun totalPurchased =>
  (checkedAdd st.pool.totalSwapFeesShare (swapFeeAmt cfg sharesIn)).bind fun feesShare =>
  (checkedSub st.poolAssetBalance assetsOut).bind fun poolAsset =>
  (checkedAdd st.userAssetBalance assetsOut).bind fun userAsset =>
  .ok ({ st with
          pool := { st.pool with
            totalPurchased := totalPurchased
            totalSwapFeesShare := feesShare }
          user := { st.user with purchasedShares := purchased }
          poolAssetBalance := poolAsset
          userAssetBalance := userAsset }, sharesIn)

/-- Modelled from the spec: §4.6 vesting release — releasable shares at `now`
are `purchasedShares * clamp((now - vestCliff) / (vestEnd - vestCliff), 0, 1)
- redeemedShares` in integer arithmetic. -/
def releasableShares (pool : Pool) (user : UserStateInPool) (now : Int) : Nat :=
  if now < pool.vestCliff then 0
  else if pool.vestEnd ≤ now then user.purchasedShares - user.redeemedShares
  else
    user.purchasedShares * (now - pool.vestCliff).toNat /
        (pool.vestEnd - pool.vestCliff).toNat -
      user.redeemedShares

/-- Modelled from the spec: §4.6 redemption — fails `RedeemingDisallowed`
before the cliff or once everything purchased has been redeemed; otherwise
releases the vested shares and advances `redeemedShares`. -/
def redeem (pool : Pool) (user : UserStateInPool) (now : Int) :
    Except ErrorCode (UserStateInPool × Nat) :=
  if now < pool.vestCliff then .error .RedeemingDisallowed
  else if user.redeemedShares = user.purchasedShares then .error .RedeemingDisallowed
  else
    .ok ({ user with redeemedShares := user.redeemedShares + releasableShares pool user now },
      releasableShares pool user now)

/-- Modelled from the spec: §6 `initializePool` validation in the §7 taxonomy
order — sale period, vest cliff strictly after sale end, vest end at or after
the cliff, weights within `[1, 9999]`, non-zero seed assets; the minimum sale
duration is left as a parameter, the spec does not fix its value. -/
def initializePool (minSaleDuration : Int)
    (assets shares virtualAssets virtualShares maxSharePrice maxSharesOut
      maxAssetsIn startWeightBasisPoints endWeightBasisPoints : Nat)
    (saleStartTime saleEndTime vestCliff vestEnd : Int)
    (sellingAllowed : Bool) : Except ErrorCode Pool :=
  if saleEndTime - saleStartTime < minSaleDuration then .error .SalePeriodLow
  else if vestCliff ≤ saleEndTime then .error .InvalidVestCliff
  else if vestEnd < vestCliff then .error .InvalidVestEnd
  else if startWeightBasisPoints < 1 ∨ 9999 < startWeightBasisPoints ∨
      endWeightBasisPoints < 1 ∨ 9999 < endWeightBasisPoints then
    .error .InvalidWeightConfig
  else if assets = 0 then .error .InvalidAssetValue
  else
    .ok { virtualAssets := virtualAssets
          virtualShares := virtualShares
          maxSharePrice := maxSharePrice
          maxSharesOut := maxSharesOut
          maxAssetsIn := maxAssetsIn
          startWeightBasisPoints := startWeightBasisPoints
          endWeightBasisPoints := endWeightBasisPoints
          saleStartTime := saleStartTime
          saleEndTime := saleEndTime
          vestCliff := vestCliff
          vestEnd := vestEnd
          whitelistRequired := false
          sellingAllowed := sellingAllowed
          closed := false
          totalPurchased := 0
          totalReferred := 0
          totalSwapFeesAsset := 0
          totalSwapFeesShare := 0 }

/-- Decidable equality for `Except`, so concrete runs of the fallible
operations can be checked by `decide`. -/
instance {ε α : Type} [DecidableEq ε] [DecidableEq α] : DecidableEq (Except ε α) :=
  fun x y =>
    match x, y with
    | .ok a, .ok b =>
      if h : a = b then .isTrue (by rw [h]) else .isFalse (by simp [h])
    | .error a, .error b =>
      if h : a = b then .isTrue (by rw [h]) else .isFalse (by simp [h])
    | .ok _, .error _ => .isFalse (by simp)
    | .error _, .ok _ => .isFalse (by simp)

/-- Fee configuration with all fees zero, used by concrete witnesses. -/
def cfg0 : OwnerConfig where
  platformFee := 0
  referralFee := 0
  swapFee := 0

/-- Fee configuration with non-trivial fees, used by concrete witnesses. -/
def cfg1 : OwnerConfig where
  platformFee := 100
  referralFee := 50
  swapFee := 30

/-- Small constant-weight pool used by concrete witnesses. -/
def pool0 : Pool where
  virtualAssets := 0
  virtualShares := 0
  maxSharePrice := 1000000000000000000
  maxSharesOut := 1000000000000000000
  maxAssetsIn := 1000000000000000000
  startWeightBasisPoints := 5000
  endWeightBasisPoints := 5000
  saleStartTime := 0
  saleEndTime := 100
  vestCliff := 200
  vestEnd := 300
  whitelistRequired := false
  sellingAllowed := true
  closed := false
  totalPurchased := 50
  totalReferred := 0
  totalSwapFeesAsset := 0
  totalSwapFeesShare := 0

/-- User who previously bought 50 shares, used by concrete witnesses. -/
def user0 : UserStateInPool where
  purchasedShares := 50
  referredAssets := 0
  redeemedShares := 0

/-- Concrete pre-swap state used by the witnesses. -/
def st0 : SwapState where
  pool := pool0
  user := user0
  poolAssetBalance := 100
  poolShareBalance := 100
  userAssetBalance := 100
  userShareBalance := 0

/-- Pool state identical to `st0` but with selling switched off, mirroring the
failure-case fixture of the sell tests. -/
def stNoSell : SwapState :=
  { st0 with pool := { pool0 with sellingAllowed := false } }

/-- Expected post-state of buying with 100 assets from `st0` under `cfg0`. -/
def stBuy : SwapState :=
  { st0 with
    pool := { pool0 with totalPurchased := 100 }
    user := { user0 with purchasedShares := 100 }
    poolAssetBalance := 200
    userAssetBalance := 0 }

/-- Expected post-state of selling 10 shares from `st0` under `cfg0` (also the
post-state of selling shares for exactly 9 assets). -/
def stSell : SwapState :=
  { st0 with
    pool := { pool0 with totalPurchased := 40 }
    user := { user0 with purchasedShares := 40 }
    poolAssetBalance := 91
    userAssetBalance := 109 }

/-- Expected post-state of buying with 100 assets from `st0` under `cfg1`. -/
def stBuyFee : SwapState :=
  { st0 with
    pool := { pool0 with totalPurchased := 99 }
    user := { user0 with purchasedShares := 99 }
    poolAssetBalance := 199
    userAssetBalance := 0 }

/-- Pool fixture for the vesting scenario of §8: cliff 1000, end 2000. -/
def poolVest : Pool :=
  { pool0 with vestCliff := 1000, vestEnd := 2000 }

/-- User fixture for the vesting scenario of §8: 1000 purchased shares. -/
def userVest : UserStateInPool where
  purchasedShares := 1000
  referredAssets := 0
  redeemedShares := 0

def poolEx : Pool where
  virtualAssets := 0
  virtualShares := 0
  maxSharePrice := 0
  maxSharesOut := 0
  maxAssetsIn := 0
  startWeightBasisPoints := 9000
  endWeightBasisPoints := 1000
  saleStartTime := 0
  saleEndTime := 1000
  vestCliff := 2000
  vestEnd := 3000
  whitelistRequired := false
  sellingAllowed := true
  closed := false
  totalPurchased := 0
  totalReferred := 0
  totalSwapFeesAsset := 0
  totalSwapFeesShare := 0

end FjordLbp

namespace FjordLbp

theorem bind_ok {α β : Type} {e : Except ErrorCode α} {f : α → Except ErrorCode β}
    {b : β} (h : e.bind f = .ok b) : ∃ a, e = .ok a ∧ f a = .ok b := by
  cases e with
  | error err => simp [Except.bind] at h
  | ok a => exact ⟨a, rfl, h⟩

theorem checkedSub_ok {a b c : Nat} (h : checkedSub a b = .ok c) :
    b ≤ a ∧ c + b = a := by
  unfold checkedSub at h
  by_cases hba : b ≤ a
  · rw [if_pos hba] at h
    injection h with h'
    omega
  · rw [if_neg hba] at h
    exact absurd h (by simp)

theorem checkedAdd_ok {a b c : Nat} (h : checkedAdd a b = .ok c) :
    c = a + b ∧ a + b < U64LIMIT := by
  unfold checkedAdd at h
  by_cases hab : a + b < U64LIMIT
  · rw [if_pos hab] at h
    injection h with h'
    omega
  · rw [if_neg hab] at h
    exact absurd h (by simp)

theorem netAfterFees_ok {cfg : OwnerConfig} {amount net : Nat}
    (h : netAfterFees cfg amount = .ok net) :
    totalFeeAmt cfg amount ≤ amount ∧ net + totalFeeAmt cfg amount = amount := by
  exact checkedSub_ok h

theorem checkAdmission_tradingDisallowed {pool : Pool} {now : Int}
    {isSell proofOk callerIsCreator : Bool}
    (h : now < pool.saleStartTime ∨ pool.saleEndTime ≤ now) :
    checkAdmission pool now isSell proofOk callerIsCreator = .error .TradingDisallowed := by
  unfold checkAdmission
  cases hc : pool.closed
  · simp only [Bool.false_eq_true, if_false]
    rw [if_pos h]
  · simp

theorem checkAdmission_ok {pool : Pool} {now : Int}
    {isSell proofOk callerIsCreator : Bool} {u : Unit}
    (h : checkAdmission pool now isSell proofOk callerIsCreator = .ok u) :
    pool.closed = false ∧ pool.saleStartTime ≤ now ∧ now < pool.saleEndTime ∧
      (isSell = true → pool.sellingAllowed = true) := by
  unfold checkAdmission at h
  split_ifs at h with h1 h2 h3 h4 h5
  refine ⟨by simpa using h1, by omega, by omega, fun hs => ?_⟩
  subst hs
  simpa using h3

theorem checkAdmission_sellingDisallowed {pool : Pool} {now : Int}
    {proofOk callerIsCreator : Bool}
    (hclosed : pool.closed = false) (h1 : pool.saleStartTime ≤ now)
    (h2 : now < pool.saleEndTime) (hsell : pool.sellingAllowed = false) :
    checkAdmission pool now true proofOk callerIsCreator = .error .SellingDisallowed := by
  unfold checkAdmission
  rw [hclosed]
  simp only [Bool.false_eq_true, if_false]
  rw [if_neg (by omega)]
  rw [hsell]
  simp

end FjordLbp

namespace FjordLbp

/-- C1: Quote/execution identity — for every pool state and valid input, the
amount a preview quotes equals the amount the corresponding mutating swap
applies from the same pre-swap state: a successful
`swapExactAssetsForShares(a, ...)` credits exactly `previewSharesOut(a)`
shares, and a successful `swapExactSharesForAssets(s, ...)` pays out exactly
`previewAssetsOut(s)` assets. -/
theorem quote_execution_identity :
    (∀ cfg now st assetsIn minSharesOut proofOk hasReferrer callerIsCreator r,
        swapExactAssetsForShares cfg now st assetsIn minSharesOut proofOk
            hasReferrer callerIsCreator = .ok r →
        previewSharesOut cfg st now assetsIn = .ok r.2) ∧
    (∀ cfg now st sharesIn minAssetsOut proofOk hasReferrer callerIsCreator r,
        swapExactSharesForAssets cfg now st sharesIn minAssetsOut proofOk
            hasReferrer callerIsCreator = .ok r →
        previewAssetsOut cfg st now sharesIn = .ok r.2) := by
  constructor
  · intro cfg now st assetsIn minSharesOut proofOk hasReferrer callerIsCreator r h
    unfold swapExactAssetsForShares at h
    obtain ⟨u, hadm, h⟩ := bind_ok h
    obtain ⟨q, hq, h⟩ := bind_ok h
    split_ifs at h
    all_goals
      obtain ⟨x1, hx1, h⟩ := bind_ok h
      obtain ⟨x2, hx2, h⟩ := bind_ok h
      obtain ⟨x3, hx3, h⟩ := bind_ok h
      obtain ⟨x4, hx4, h⟩ := bind_ok h
      obtain ⟨x5, hx5, h⟩ := bind_ok h
      obtain ⟨x6, hx6, h⟩ := bind_ok h
      obtain ⟨x7, hx7, h⟩ := bind_ok h
      injection h with h'
      rw [← h']
      exact hq
  · intro cfg now st sharesIn minAssetsOut proofOk hasReferrer callerIsCreator r h
    unfold swapExactSharesForAssets at h
    obtain ⟨u, hadm, h⟩ := bind_ok h
    obtain ⟨q, hq, h⟩ := bind_ok h
    split_ifs at h
    obtain ⟨x1, hx1, h⟩ := bind_ok h
    obtain ⟨x2, hx2, h⟩ := bind_ok h
    obtain ⟨x3, hx3, h⟩ := bind_ok h
    obtain ⟨x4, hx4, h⟩ := bind_ok h
    obtain ⟨x5, hx5, h⟩ := bind_ok h
    injection h with h'
    rw [← h']
    exact hq

/-- C1 witness: on the concrete state `st0` the buy of 100 assets credits the
quoted 50 shares and the sell of 10 shares pays the quoted 9 assets. -/
theorem quote_execution_identity_witness :
    previewSharesOut cfg0 st0 0 100 = .ok 50 ∧
      previewAssetsOut cfg0 st0 0 10 = .ok 9 :=
  ⟨quote_execution_identity.1 cfg0 0 st0 100 0 true false false (stBuy, 50) (by decide),
   quote_execution_identity.2 cfg0 0 st0 10 0 true false false (stSell, 9) (by decide)⟩

/-- C2: every swap attempted outside the sale window (`now < saleStartTime` or
`now ≥ saleEndTime`) fails with `TradingDisallowed`; in particular a swap at
exactly `now = saleEndTime` fails, while at `now = saleStartTime` the
admission check does not raise `TradingDisallowed`. -/
theorem trading_window_admission :
    (∀ cfg now st a m proofOk hasReferrer callerIsCreator,
        (now < st.pool.saleStartTime ∨ st.pool.saleEndTime ≤ now) →
        swapExactAssetsForShares cfg now st a m proofOk hasReferrer callerIsCreator =
          .error .TradingDisallowed) ∧
    (∀ cfg now st a m proofOk hasReferrer callerIsCreator,
        (now < st.pool.saleStartTime ∨ st.pool.saleEndTime ≤ now) →
        swapAssetsForExactShares cfg now st a m proofOk hasReferrer callerIsCreator =
          .error .TradingDisallowed) ∧
    (∀ cfg now st a m proofOk hasReferrer callerIsCreator,
        (now < st.pool.saleStartTime ∨ st.pool.saleEndTime ≤ now) →
        swapExactSharesForAssets cfg now st a m proofOk hasReferrer callerIsCreator =
          .error .TradingDisallowed) ∧
    (∀ cfg now st a m proofOk hasReferrer callerIsCreator,
        (now < st.pool.saleStartTime ∨ st.pool.saleEndTime ≤ now) →
        swapSharesForExactAssets cfg now st a m proofOk hasReferrer callerIsCreator =
          .error .TradingDisallowed) ∧
    (∀ cfg st a m proofOk hasReferrer callerIsCreator,
        swapExactSharesForAssets cfg st.pool.saleEndTime st a m proofOk
            hasReferrer callerIsCreator = .error .TradingDisallowed) ∧
    (∀ pool isSell proofOk callerIsCreator, pool.closed = false →
        pool.saleStartTime < pool.saleEndTime →
        checkAdmission pool pool.saleStartTime isSell proofOk callerIsCreator ≠
          .error .TradingDisallowed) := by
  refine ⟨?b1, ?b2, ?b3, ?b4, ?bEnd, ?bStart⟩
  case b1 =>
    intro cfg now st a m proofOk hasReferrer callerIsCreator hwin
    unfold swapExactAssetsForShares
    rw [checkAdmission_tradingDisallowed hwin]
    rfl
  case b2 =>
    intro cfg now st a m proofOk hasReferrer callerIsCreator hwin
    unfold swapAssetsForExactShares
    rw [checkAdmission_tradingDisallowed hwin]
    rfl
  case b3 =>
    intro cfg now st a m proofOk hasReferrer callerIsCreator hwin
    unfold swapExactSharesForAssets
    rw [checkAdmission_tradingDisallowed hwin]
    rfl
  case b4 =>
    intro cfg now st a m proofOk hasReferrer callerIsCreator hwin
    unfold swapSharesForExactAssets
    rw [checkAdmission_tradingDisallowed hwin]
    rfl
  case bEnd =>
    intro cfg st a m proofOk hasReferrer callerIsCreator
    unfold swapExactSharesForAssets
    rw [checkAdmission_tradingDisallowed (Or.inr le_rfl)]
    rfl
  case bStart =>
    intro pool isSell proofOk callerIsCreator hclosed hlt hcontra
    unfold checkAdmission at hcontra
    rw [hclosed] at hcontra
    simp only [Bool.false_eq_true, if_false] at hcontra
    rw [if_neg (by omega)] at hcontra
    split_ifs at hcontra <;> simp_all

/-- C2 witness: on `st0` (window `[0, 100)`) a sell at `now = 100` and a buy at
`now = 200` fail `TradingDisallowed`, while the admission check at
`now = saleStartTime = 0` does not raise it. -/
theorem trading_window_admission_witness :
    swapExactAssetsForShares cfg0 200 st0 1 1 true false false =
        .error .TradingDisallowed ∧
      swapExactSharesForAssets cfg0 100 st0 1 1 true false false =
        .error .TradingDisallowed ∧
      checkAdmission pool0 0 true true false ≠ .error .TradingDisallowed :=
  ⟨trading_window_admission.1 cfg0 200 st0 1 1 true false false (by decide),
   trading_window_admission.2.2.2.2.1 cfg0 st0 1 1 true false false,
   trading_window_admission.2.2.2.2.2 pool0 true true false (by decide) (by decide)⟩

/-- C8: a sell-direction swap (`swapExactSharesForAssets` or
`swapSharesForExactAssets`) attempted during the sale window on an open pool
whose `sellingAllowed` flag is false fails with `SellingDisallowed`; in this
state-passing model a failing call returns no successor state, so no state
changes. -/
theorem selling_disallowed_rejects :
    ∀ cfg now st x y proofOk hasReferrer callerIsCreator,
      st.pool.closed = false → st.pool.saleStartTime ≤ now →
      now < st.pool.saleEndTime → st.pool.sellingAllowed = false →
      swapExactSharesForAssets cfg now st x y proofOk hasReferrer callerIsCreator =
          .error .SellingDisallowed ∧
        swapSharesForExactAssets cfg now st x y proofOk hasReferrer callerIsCreator =
          .error .SellingDisallowed := by
  intro cfg now st x y proofOk hasReferrer callerIsCreator hclosed h1 h2 hsell
  constructor
  · unfold swapExactSharesForAssets
    rw [checkAdmission_sellingDisallowed hclosed h1 h2 hsell]
    rfl
  · unfold swapSharesForExactAssets
    rw [checkAdmission_sellingDisallowed hclosed h1 h2 hsell]
    rfl

/-- C8 witness: on the selling-disabled variant of `st0` both sell entry points
fail with `SellingDisallowed` at `now = 0`. -/
theorem selling_disallowed_rejects_witness :
    swapExactSharesForAssets cfg0 0 stNoSell 1 1 true false false =
        .error .SellingDisallowed ∧
      swapSharesForExactAssets cfg0 0 stNoSell 1 1 true false false =
        .error .SellingDisallowed :=
  selling_disallowed_rejects cfg0 0 stNoSell 1 1 true false false
    (by decide) (by decide) (by decide) (by decide)

/-- C9: provided the sale-period check passes, `initializePool` rejects
`vestCliff ≤ saleEndTime` with `InvalidVestCliff`, rejects
`vestEnd < vestCliff` with `InvalidVestEnd`, and creates a pool only when
`saleEndTime < vestCliff ≤ vestEnd`. -/
theorem initialize_pool_vesting_order :
    ∀ minSaleDuration assets shares vA vS mp ms ma sw ew
      (saleStartTime saleEndTime vestCliff vestEnd : Int) sell,
      minSaleDuration ≤ saleEndTime - saleStartTime →
      ((vestCliff ≤ saleEndTime →
          initializePool minSaleDuration assets shares vA vS mp ms ma sw ew
              saleStartTime saleEndTime vestCliff vestEnd sell =
            .error .InvalidVestCliff) ∧
       (saleEndTime < vestCliff → vestEnd < vestCliff →
          initializePool minSaleDuration assets shares vA vS mp ms ma sw ew
              saleStartTime saleEndTime vestCliff vestEnd sell =
            .error .InvalidVestEnd) ∧
       (∀ pool,
          initializePool minSaleDuration assets shares vA vS mp ms ma sw ew
              saleStartTime saleEndTime vestCliff vestEnd sell = .ok pool →
          saleEndTime < vestCliff ∧ vestCliff ≤ vestEnd)) := by
  intro minSaleDuration assets shares vA vS mp ms ma sw ew
    saleStartTime saleEndTime vestCliff vestEnd sell hperiod
  refine ⟨?c1, ?c2, ?c3⟩
  case c1 =>
    intro hvc
    unfold initializePool
    rw [if_neg (by omega), if_pos hvc]
  case c2 =>
    intro hvc hve
    unfold initializePool
    rw [if_neg (by omega), if_neg (by omega), if_pos hve]
  case c3 =>
    intro pool h
    unfold initializePool at h
    split_ifs at h with h1 h2 h3 h4 h5
    omega

/-- C9 witness: with sale window `[0, 100]`, a cliff at 50 is rejected with
`InvalidVestCliff` and a cliff at 200 with vest end 150 is rejected with
`InvalidVestEnd`. -/
theorem initialize_pool_vesting_order_witness :
    initializePool 0 100 100 0 0 1 1 1 5000 5000 0 100 50 60 true =
        .error .InvalidVestCliff ∧
      initializePool 0 100 100 0 0 1 1 1 5000 5000 0 100 200 150 true =
        .error .InvalidVestEnd :=
  ⟨(initialize_pool_vesting_order 0 100 100 0 0 1 1 1 5000 5000 0 100 50 60 true
      (by decide)).1 (by decide),
   (initialize_pool_vesting_order 0 100 100 0 0 1 1 1 5000 5000 0 100 200 150 true
      (by decide)).2.1 (by decide) (by decide)⟩

end FjordLbp

namespace FjordLbp

/-- C3: a successful `swapExactSharesForAssets(sharesIn, ...)` happens with
selling allowed inside the sale window and debits the user's
`purchasedShares` and the pool's `totalPurchased` by exactly `sharesIn`,
credits `totalSwapFeesShare` by exactly `floor(sharesIn * swapFee / 10000)`,
pays the quoted `assetsOut` to the user and debits it from the pool's asset
balance. -/
theorem sell_exact_shares_accounting :
    ∀ cfg now st sharesIn minAssetsOut proofOk hasReferrer callerIsCreator r,
      swapExactSharesForAssets cfg now st sharesIn minAssetsOut proofOk
          hasReferrer callerIsCreator = .ok r →
      st.pool.sellingAllowed = true ∧
      st.pool.saleStartTime ≤ now ∧ now < st.pool.saleEndTime ∧
      r.1.user.purchasedShares + sharesIn = st.user.purchasedShares ∧
      r.1.pool.totalPurchased + sharesIn = st.pool.totalPurchased ∧
      r.1.pool.totalSwapFeesShare =
        st.pool.totalSwapFeesShare + sharesIn * cfg.swapFee / 10000 ∧
      previewAssetsOut cfg st now sharesIn = .ok r.2 ∧
      r.1.userAssetBalance = st.userAssetBalance + r.2 ∧
      r.1.poolAssetBalance + r.2 = st.poolAssetBalance := by
  intro cfg now st sharesIn minAssetsOut proofOk hasReferrer callerIsCreator r h
  unfold swapExactSharesForAssets at h
  obtain ⟨u, hadm, h⟩ := bind_ok h
  obtain ⟨q, hq, h⟩ := bind_ok h
  split_ifs at h
  obtain ⟨x1, hx1, h⟩ := bind_ok h
  obtain ⟨x2, hx2, h⟩ := bind_ok h
  obtain ⟨x3, hx3, h⟩ := bind_ok h
  obtain ⟨x4, hx4, h⟩ := bind_ok h
  obtain ⟨x5, hx5, h⟩ := bind_ok h
  injection h with h'
  rw [← h']
  obtain ⟨hc, hw1, hw2, hsell⟩ := checkAdmission_ok hadm
  exact ⟨hsell rfl, hw1, hw2, (checkedSub_ok hx1).2, (checkedSub_ok hx2).2,
    (checkedAdd_ok hx3).1, hq, (checkedAdd_ok hx5).1, (checkedSub_ok hx4).2⟩

/-- C3 witness: selling 10 shares from `st0` under `cfg0` debits 10 shares
from user and pool ledgers, collects zero fee, and moves the quoted 9 assets
from the pool to the user. -/
theorem sell_exact_shares_accounting_witness :
    st0.pool.sellingAllowed = true ∧
    st0.pool.saleStartTime ≤ 0 ∧ (0 : Int) < st0.pool.saleEndTime ∧
    stSell.user.purchasedShares + 10 = st0.user.purchasedShares ∧
    stSell.pool.totalPurchased + 10 = st0.pool.totalPurchased ∧
    stSell.pool.totalSwapFeesShare =
      st0.pool.totalSwapFeesShare + 10 * cfg0.swapFee / 10000 ∧
    previewAssetsOut cfg0 st0 0 10 = .ok 9 ∧
    stSell.userAssetBalance = st0.userAssetBalance + 9 ∧
    stSell.poolAssetBalance + 9 = st0.poolAssetBalance :=
  sell_exact_shares_accounting cfg0 0 st0 10 0 true false false
    (stSell, 9) (by decide)

/-- C4: fee conservation — the §4.5 three-way split never exceeds the gross
amount and is exact: on any successful fee carve
`platformFeeAmt + referralFeeAmt + swapFeeAmt ≤ gross` and
`net + fees = gross`; a successful buy moves exactly `assetsIn - fees` into
the pool's asset reserve, and a successful exact-in sell has
`fees ≤ sharesIn`. -/
theorem fee_conservation :
    (∀ cfg amount net, netAfterFees cfg amount = .ok net →
        platformFeeAmt cfg amount + referralFeeAmt cfg amount +
            swapFeeAmt cfg amount ≤ amount ∧
          net + (platformFeeAmt cfg amount + referralFeeAmt cfg amount +
            swapFeeAmt cfg amount) = amount) ∧
    (∀ cfg now st assetsIn minSharesOut proofOk hasReferrer callerIsCreator r,
        swapExactAssetsForShares cfg now st assetsIn minSharesOut proofOk
            hasReferrer callerIsCreator = .ok r →
        r.1.poolAssetBalance + (platformFeeAmt cfg assetsIn +
            referralFeeAmt cfg assetsIn + swapFeeAmt cfg assetsIn) =
          st.poolAssetBalance + assetsIn) ∧
    (∀ cfg now st sharesIn minAssetsOut proofOk hasReferrer callerIsCreator r,
        swapExactSharesForAssets cfg now st sharesIn minAssetsOut proofOk
            hasReferrer callerIsCreator = .ok r →
        platformFeeAmt cfg sharesIn + referralFeeAmt cfg sharesIn +
            swapFeeAmt cfg sharesIn ≤ sharesIn) := by
  refine ⟨?split, ?buy, ?sell⟩
  case split =>
    intro cfg amount net h
    exact netAfterFees_ok h
  case buy =>
    intro cfg now st assetsIn minSharesOut proofOk hasReferrer callerIsCreator r h
    unfold swapExactAssetsForShares at h
    obtain ⟨u, hadm, h⟩ := bind_ok h
    obtain ⟨q, hq, h⟩ := bind_ok h
    split_ifs at h
    all_goals
      obtain ⟨x1, hx1, h⟩ := bind_ok h
      obtain ⟨x2, hx2, h⟩ := bind_ok h
      obtain ⟨x3, hx3, h⟩ := bind_ok h
      obtain ⟨x4, hx4, h⟩ := bind_ok h
      obtain ⟨x5, hx5, h⟩ := bind_ok h
      obtain ⟨x6, hx6, h⟩ := bind_ok h
      obtain ⟨x7, hx7, h⟩ := bind_ok h
      injection h with h'
      rw [← h']
      have hnet := netAfterFees_ok hx2
      have hadd := checkedAdd_ok hx3
      show x3 + _ = st.poolAssetBalance + assetsIn
      unfold totalFeeAmt at hnet
      omega
  case sell =>
    intro cfg now st sharesIn minAssetsOut proofOk hasReferrer callerIsCreator r h
    unfold swapExactSharesForAssets at h
    obtain ⟨u, hadm, h⟩ := bind_ok h
    obtain ⟨q, hq, h⟩ := bind_ok h
    unfold previewAssetsOut at hq
    obtain ⟨net, hnet, _⟩ := bind_ok hq
    have := netAfterFees_ok hnet
    unfold totalFeeAmt at this
    omega

/-- C4 witness: under `cfg1` (1% / 0.5% / 0.3% fees) carving fees from 100
assets leaves net 99 with exact conservation, and the concrete buy moves
`100 - fees` into the pool reserve; the concrete sell satisfies the fee
bound. -/
theorem fee_conservation_witness :
    (platformFeeAmt cfg1 100 + referralFeeAmt cfg1 100 + swapFeeAmt cfg1 100 ≤ 100 ∧
      99 + (platformFeeAmt cfg1 100 + referralFeeAmt cfg1 100 +
        swapFeeAmt cfg1 100) = 100) ∧
    stBuyFee.poolAssetBalance + (platformFeeAmt cfg1 100 +
        referralFeeAmt cfg1 100 + swapFeeAmt cfg1 100) =
      st0.poolAssetBalance + 100 ∧
    platformFeeAmt cfg0 10 + referralFeeAmt cfg0 10 + swapFeeAmt cfg0 10 ≤ 10 :=
  ⟨fee_conservation.1 cfg1 100 99 (by decide),
   fee_conservation.2.1 cfg1 0 st0 100 0 true false false (stBuyFee, 49) (by decide),
   fee_conservation.2.2 cfg0 0 st0 10 0 true false false (stSell, 9) (by decide)⟩

/-- C10: a successful `swapSharesForExactAssets(assetsOut, ...)` deducts the
gross `previewSharesIn(assetsOut)` quote — which already contains the
swap-fee portion — from both the user's `purchasedShares` and the pool's
`totalPurchased`, ledgers `floor(gross * swapFee / 10000)` into
`totalSwapFeesShare`, and moves exactly `assetsOut` assets from the pool to
the user. -/
theorem sell_exact_assets_accounting :
    ∀ cfg now st assetsOut maxSharesIn proofOk hasReferrer callerIsCreator r,
      swapSharesForExactAssets cfg now st assetsOut maxSharesIn proofOk
          hasReferrer callerIsCreator = .ok r →
      previewSharesIn cfg st now assetsOut = .ok r.2 ∧
      r.1.user.purchasedShares + r.2 = st.user.purchasedShares ∧
      r.1.pool.totalPurchased + r.2 = st.pool.totalPurchased ∧
      r.1.pool.totalSwapFeesShare =
        st.pool.totalSwapFeesShare + r.2 * cfg.swapFee / 10000 ∧
      r.1.userAssetBalance = st.userAssetBalance + assetsOut ∧
      r.1.poolAssetBalance + assetsOut = st.poolAssetBalance := by
  intro cfg now st assetsOut maxSharesIn proofOk hasReferrer callerIsCreator r h
  unfold swapSharesForExactAssets at h
  obtain ⟨u, hadm, h⟩ := bind_ok h
  obtain ⟨q, hq, h⟩ := bind_ok h
  split_ifs at h
  obtain ⟨x1, hx1, h⟩ := bind_ok h
  obtain ⟨x2, hx2, h⟩ := bind_ok h
  obtain ⟨x3, hx3, h⟩ := bind_ok h
  obtain ⟨x4, hx4, h⟩ := bind_ok h
  obtain ⟨x5, hx5, h⟩ := bind_ok h
  injection h with h'
  rw [← h']
  exact ⟨hq, (checkedSub_ok hx1).2, (checkedSub_ok hx2).2,
    (checkedAdd_ok hx3).1, (checkedAdd_ok hx5).1, (checkedSub_ok hx4).2⟩

/-- C10 witness: selling for exactly 9 assets from `st0` under `cfg0` deducts
the gross 10-share quote from both ledgers and moves exactly 9 assets. -/
theorem sell_exact_assets_accounting_witness :
    previewSharesIn cfg0 st0 0 9 = .ok 10 ∧
    stSell.user.purchasedShares + 10 = st0.user.purchasedShares ∧
    stSell.pool.totalPurchased + 10 = st0.pool.totalPurchased ∧
    stSell.pool.totalSwapFeesShare =
      st0.pool.totalSwapFeesShare + 10 * cfg0.swapFee / 10000 ∧
    stSell.userAssetBalance = st0.userAssetBalance + 9 ∧
    stSell.poolAssetBalance + 9 = st0.poolAssetBalance :=
  sell_exact_assets_accounting cfg0 0 st0 9 100 true false false
    (stSell, 10) (by decide)

end FjordLbp

namespace FjordLbp

theorem tdiv_coe (m n : Nat) :
    Int.tdiv (m : Int) (n : Int) = ((m / n : Nat) : Int) := rfl

theorem tdiv_neg_coe (m n : Nat) :
    Int.tdiv (-(m : Int)) (n : Int) = -((m / n : Nat) : Int) := by
  cases m with
  | zero => simp
  | succ k => rfl

/-- C5: `weightAt` returns the start weight pair before `saleStartTime`, the
end weight pair at or after `saleEndTime`, and inside the window interpolates
`shareWeight = startW + (endW - startW) * (now - saleStart) / (saleEnd - saleStart)`
in integer (truncated-division) arithmetic, with
`assetWeight = 10000 - shareWeight` in all cases. -/
theorem weight_schedule_interpolation :
    ∀ pool now, pool.startWeightBasisPoints ≤ 10000 →
      pool.endWeightBasisPoints ≤ 10000 →
      pool.saleStartTime < pool.saleEndTime →
      (now < pool.saleStartTime →
        weightAt pool now =
          (pool.startWeightBasisPoints, 10000 - pool.startWeightBasisPoints)) ∧
      (pool.saleEndTime ≤ now →
        weightAt pool now =
          (pool.endWeightBasisPoints, 10000 - pool.endWeightBasisPoints)) ∧
      (pool.saleStartTime ≤ now → now < pool.saleEndTime →
        ((weightAt pool now).1 : Int) =
          (pool.startWeightBasisPoints : Int) +
            Int.tdiv
              (((pool.endWeightBasisPoints : Int) - (pool.startWeightBasisPoints : Int)) *
                (now - pool.saleStartTime))
              (pool.saleEndTime - pool.saleStartTime) ∧
        (weightAt pool now).2 = 10000 - (weightAt pool now).1) := by
  intro pool now hsw hew hse
  refine ⟨?before, ?after, ?mid⟩
  case before =>
    intro h
    unfold weightAt
    rw [if_pos h]
  case after =>
    intro h
    unfold weightAt
    rw [if_neg (by omega), if_pos h]
  case mid =>
    intro h1 h2
    have hproj : weightAt pool now =
        ((if pool.startWeightBasisPoints ≤ pool.endWeightBasisPoints then
            pool.startWeightBasisPoints +
              (pool.endWeightBasisPoints - pool.startWeightBasisPoints) *
                  (now - pool.saleStartTime).toNat /
                (pool.saleEndTime - pool.saleStartTime).toNat
          else
            pool.startWeightBasisPoints -
              (pool.startWeightBasisPoints - pool.endWeightBasisPoints) *
                  (now - pool.saleStartTime).toNat /
                (pool.saleEndTime - pool.saleStartTime).toNat),
          10000 -
          (if pool.startWeightBasisPoints ≤ pool.endWeightBasisPoints then
            pool.startWeightBasisPoints +
              (pool.endWeightBasisPoints - pool.startWeightBasisPoints) *
                  (now - pool.saleStartTime).toNat /
                (pool.saleEndTime - pool.saleStartTime).toNat
          else
            pool.startWeightBasisPoints -
              (pool.startWeightBasisPoints - pool.endWeightBasisPoints) *
                  (now - pool.saleStartTime).toNat /
                (pool.saleEndTime - pool.saleStartTime).toNat)) := by
      unfold weightAt
      rw [if_neg (by omega), if_neg (by omega)]
    rw [hproj]
    have hel : (((now - pool.saleStartTime).toNat : Nat) : Int) =
        now - pool.saleStartTime := Int.toNat_of_nonneg (by omega)
    have hd : (((pool.saleEndTime - pool.saleStartTime).toNat : Nat) : Int) =
        pool.saleEndTime - pool.saleStartTime := Int.toNat_of_nonneg (by omega)
    constructor
    · by_cases hdir : pool.startWeightBasisPoints ≤ pool.endWeightBasisPoints
      · rw [if_pos hdir]
        have hsub : (pool.endWeightBasisPoints : Int) -
            (pool.startWeightBasisPoints : Int) =
            ((pool.endWeightBasisPoints - pool.startWeightBasisPoints : Nat) : Int) := by
          omega
        conv_rhs => rw [← hel, ← hd, hsub, ← Nat.cast_mul, tdiv_coe]
        push_cast
        ring
      · rw [if_neg hdir]
        have hsub : (pool.endWeightBasisPoints : Int) -
            (pool.startWeightBasisPoints : Int) =
            -((pool.startWeightBasisPoints - pool.endWeightBasisPoints : Nat) : Int) := by
          omega
        conv_rhs => rw [← hel, ← hd, hsub, neg_mul, ← Nat.cast_mul, tdiv_neg_coe]
        have held : (now - pool.saleStartTime).toNat ≤
            (pool.saleEndTime - pool.saleStartTime).toNat := by omega
        have hd0 : 0 < (pool.saleEndTime - pool.saleStartTime).toNat := by omega
        have hmle : (pool.startWeightBasisPoints - pool.endWeightBasisPoints) *
              (now - pool.saleStartTime).toNat /
              (pool.saleEndTime - pool.saleStartTime).toNat ≤
            pool.startWeightBasisPoints - pool.endWeightBasisPoints := by
          calc (pool.startWeightBasisPoints - pool.endWeightBasisPoints) *
                (now - pool.saleStartTime).toNat /
                (pool.saleEndTime - pool.saleStartTime).toNat ≤
              (pool.startWeightBasisPoints - pool.endWeightBasisPoints) *
                (pool.saleEndTime - pool.saleStartTime).toNat /
                (pool.saleEndTime - pool.saleStartTime).toNat :=
              Nat.div_le_div_right (Nat.mul_le_mul_left _ held)
            _ = pool.startWeightBasisPoints - pool.endWeightBasisPoints :=
              Nat.mul_div_cancel _ hd0
        omega
    · rfl

/-- C5 witness: on the 9000→1000 schedule over `[0, 1000]`, the interpolated
pair at `now = 500` satisfies the integer interpolation formula and the
complement law, and the boundary cases return the start/end pairs. -/
theorem weight_schedule_interpolation_witness :
    ((weightAt poolEx 500).1 : Int) =
        (poolEx.startWeightBasisPoints : Int) +
          Int.tdiv
            (((poolEx.endWeightBasisPoints : Int) - (poolEx.startWeightBasisPoints : Int)) *
              (500 - poolEx.saleStartTime))
            (poolEx.saleEndTime - poolEx.saleStartTime) ∧
      (weightAt poolEx 500).2 = 10000 - (weightAt poolEx 500).1 ∧
      weightAt poolEx (-5) =
        (poolEx.startWeightBasisPoints, 10000 - poolEx.startWeightBasisPoints) ∧
      weightAt poolEx 1000 =
        (poolEx.endWeightBasisPoints, 10000 - poolEx.endWeightBasisPoints) :=
  ⟨((weight_schedule_interpolation poolEx 500 (by decide) (by decide) (by decide)).2.2
      (by decide) (by decide)).1,
   ((weight_schedule_interpolation poolEx 500 (by decide) (by decide) (by decide)).2.2
      (by decide) (by decide)).2,
   (weight_schedule_interpolation poolEx (-5) (by decide) (by decide) (by decide)).1
      (by decide),
   (weight_schedule_interpolation poolEx 1000 (by decide) (by decide) (by decide)).2.1
      (by decide)⟩

/-- C6: vesting release — for every state the releasable amount equals
`purchasedShares * clamp((now - vestCliff) / (vestEnd - vestCliff), 0, 1) -
redeemedShares` in integer arithmetic (the clamp realized as `min`/`toNat`),
redemption fails `RedeemingDisallowed` before the cliff or once everything is
redeemed, and on the §8 scenario (1000 purchased, cliff 1000, end 2000) the
releasable amount is 500 at `now = 1500` and the clamped 1000 at
`now = 2500`. -/
theorem vesting_release :
    (∀ pool user now, pool.vestCliff < pool.vestEnd →
        releasableShares pool user now =
          user.purchasedShares *
              min (now - pool.vestCliff).toNat (pool.vestEnd - pool.vestCliff).toNat /
              (pool.vestEnd - pool.vestCliff).toNat -
            user.redeemedShares) ∧
    (∀ pool user now,
        now < pool.vestCliff ∨ user.redeemedShares = user.purchasedShares →
        redeem pool user now = .error .RedeemingDisallowed) ∧
    releasableShares poolVest userVest 1500 = 500 ∧
    releasableShares poolVest userVest 2500 = 1000 := by
  refine ⟨?formula, ?fail, by decide, by decide⟩
  case formula =>
    intro pool user now hce
    unfold releasableShares
    split_ifs with hb ha
    · have h0 : (now - pool.vestCliff).toNat = 0 := by omega
      rw [h0]
      simp
    · have hd0 : 0 < (pool.vestEnd - pool.vestCliff).toNat := by omega
      have hm : min (now - pool.vestCliff).toNat (pool.vestEnd - pool.vestCliff).toNat =
          (pool.vestEnd - pool.vestCliff).toNat := by omega
      rw [hm, Nat.mul_div_cancel _ hd0]
    · have hm : min (now - pool.vestCliff).toNat (pool.vestEnd - pool.vestCliff).toNat =
          (now - pool.vestCliff).toNat := by omega
      rw [hm]
  case fail =>
    intro pool user now hcond
    unfold redeem
    rcases hcond with hc | hr
    · rw [if_pos hc]
    · by_cases hc : now < pool.vestCliff
      · rw [if_pos hc]
      · rw [if_neg hc, if_pos hr]

/-- C6 witness: the integer clamp formula instantiated at the §8 scenario, and
a pre-cliff redemption failing `RedeemingDisallowed`. -/
theorem vesting_release_witness :
    releasableShares poolVest userVest 1500 =
        userVest.purchasedShares *
            min ((1500 : Int) - poolVest.vestCliff).toNat
              (poolVest.vestEnd - poolVest.vestCliff).toNat /
            (poolVest.vestEnd - poolVest.vestCliff).toNat -
          userVest.redeemedShares ∧
      redeem poolVest userVest 500 = .error .RedeemingDisallowed :=
  ⟨vesting_release.1 poolVest userVest 1500 (by decide),
   vesting_release.2.1 poolVest userVest 500 (Or.inl (by decide))⟩

end FjordLbp

namespace FjordLbp

theorem leastGE_sat {q yp target : Nat} :
    ∀ {fuel n m : Nat}, leastGE q yp target n fuel = .some m →
      target ≤ m ^ q * yp := by
  intro fuel
  induction fuel with
  | zero => intro n m h; simp [leastGE] at h
  | succ f ih =>
    intro n m h
    rw [leastGE] at h
    by_cases hn : target ≤ n ^ q * yp
    · rw [if_pos hn] at h
      injection h with h'
      rwa [← h']
    · rw [if_neg hn] at h
      exact ih h

theorem leastGE_min {q yp target : Nat} :
    ∀ {fuel n m : Nat}, leastGE q yp target n fuel = .some m →
      ∀ N, n ≤ N → target ≤ N ^ q * yp → m ≤ N := by
  intro fuel
  induction fuel with
  | zero => intro n m h; simp [leastGE] at h
  | succ f ih =>
    intro n m h N hN hsat
    rw [leastGE] at h
    by_cases hn : target ≤ n ^ q * yp
    · rw [if_pos hn] at h
      injection h with h'
      omega
    · rw [if_neg hn] at h
      have hne : n ≠ N := fun he => hn (he ▸ hsat)
      exact ih h N (by omega) hsat

/-- C7: round-trip non-profitability of the §4.4 quotes — buying shares with
`a` assets and then quoting the assets needed to buy that same share amount
back never quotes less than `a`; rounding works only against the trader. -/
theorem round_trip_nonprofit :
    ∀ A S sw aw a s aIn,
      sharesOutForExactAssetsIn A S sw aw a = .ok s →
      assetsInForExactSharesOut A S sw aw s = .ok aIn →
      aIn ≤ a := by
  intro A S sw aw a s aIn h1 h2
  unfold sharesOutForExactAssetsIn at h1
  unfold assetsInForExactSharesOut at h2
  split_ifs at h1 with hw
  split_ifs at h2 with hw2 hs
  split at h1
  next c heq1 =>
    split at h2
    next m heq2 =>
      injection h1 with h1'
      injection h2 with h2'
      unfold ceilWeightedPow at heq1 heq2
      have hcsat := leastGE_sat heq1
      have hcS : c ≤ S :=
        leastGE_min heq1 S (Nat.zero_le _)
          (Nat.mul_le_mul_left _ (Nat.pow_le_pow_left (Nat.le_add_right A a) _))
      have hsc : S - s = c := by omega
      rw [hsc] at heq2
      have hsat' : A ^ (aw / Nat.gcd aw sw) * S ^ (sw / Nat.gcd aw sw) ≤
          (A + a) ^ (aw / Nat.gcd aw sw) * c ^ (sw / Nat.gcd aw sw) := by
        calc A ^ (aw / Nat.gcd aw sw) * S ^ (sw / Nat.gcd aw sw)
            = S ^ (sw / Nat.gcd aw sw) * A ^ (aw / Nat.gcd aw sw) := by ring
          _ ≤ c ^ (sw / Nat.gcd aw sw) * (A + a) ^ (aw / Nat.gcd aw sw) := hcsat
          _ = (A + a) ^ (aw / Nat.gcd aw sw) * c ^ (sw / Nat.gcd aw sw) := by ring
      have hm := leastGE_min heq2 (A + a) (Nat.zero_le _) hsat'
      omega
    next heq2 => exact absurd h2 (by simp)
  next heq1 => exact absurd h1 (by simp)

/-- C7 witness: starting from 100/100 reserves at equal weights, 100 assets in
buys 50 shares, and buying 50 shares back is quoted at exactly 100 assets —
no profit. -/
theorem round_trip_nonprofit_witness :
    sharesOutForExactAssetsIn 100 100 5000 5000 100 = .ok 50 ∧
      assetsInForExactSharesOut 100 100 5000 5000 50 = .ok 100 ∧ 100 ≤ 100 :=
  ⟨by decide, by decide,
   round_trip_nonprofit 100 100 5000 5000 100 50 100 (by decide) (by decide)⟩

end FjordLbp
